import Mathlib

set_option autoImplicit false

/-!
Verification of the orchestration pipeline of the Solana MEV bot
(`src/main.rs`, `src/common/config.rs`).

The session driver `main` is embedded as a deterministic function `mainRun`
over a `World` record supplying the outcomes of every external call
(socket connect, `run_arbitrage_strategy`, file system, document store).
`mainRun` returns the ordered trace of observable events together with the
session outcome (`ok`, an `anyhow` error propagated by `?`, or a panic).
Library code of the repository that is not under `src/` (the arbitrage
types, the strategies, the database sink) is modelled from the spec where
a definition is unavoidable; each such definition says so in its doc
comment.
-/

namespace MEVBot

/-- Embeds `TokenInArb` with the fields used by `src/main.rs` (address, symbol). -/
structure TokenInArb where
  address : String
  symbol : String
  deriving DecidableEq, Repr

/-- Embeds `InputVec`, the per-configuration record built in `src/main.rs`
lines 53-122. -/
structure InputVec where
  tokens_to_arb : List TokenInArb
  include_1hop : Bool
  include_2hop : Bool
  numbers_of_best_paths : Nat
  get_fresh_pools_bool : Bool
  deriving DecidableEq, Repr

/-- Modelled from the spec: `SwapPathSelected` is defined in `arbitrage/types.rs`,
which is not under `src/`. Per the spec it is a selection "tagged with the
configuration name and timestamp"; its internal structure is opaque to the
aggregation code in `src/main.rs`, which only moves whole elements. -/
structure SwapPathSelected where
  name : String
  timestamp : Nat
  deriving DecidableEq, Repr

/-- Modelled from the spec: `VecSwapPathSelected` is "an ordered collection of
SwapPathSelected"; `src/main.rs` reads and builds its single field `value`. -/
structure VecSwapPathSelected where
  value : List SwapPathSelected
  deriving DecidableEq, Repr

/-- The two payload variants of the socket event callback in `src/main.rs`
lines 137-145 (`Payload::Text`, `Payload::Binary`). -/
inductive Payload where
  | text (data : String)
  | binary (data : List Nat)
  deriving DecidableEq, Repr

/-- Observable actions of one session of `main`, in program order. -/
inductive Event where
  | logged (msg : String)
  | printed (msg : String)
  | connected
  | poolsLoaded
  | arbitrageRun (idx : Nat) (path : String)
  | fileRead (path : String)
  | fileCreateAttempt (path : String)
  | fileWritten (path : String) (content : VecSwapPathSelected)
  | dbInsertAttempt (collection : String)
  | dbInserted (collection : String) (content : VecSwapPathSelected)
  | bestStrategyRun (path : String)
  | optimismRun (path : String)
  deriving DecidableEq, Repr

/-- How a session of `main` ends: `Ok(())`, an error propagated by `?`,
or a Rust panic (out-of-bounds indexing). -/
inductive Outcome where
  | ok
  | err (msg : String)
  | panicked (msg : String)
  deriving DecidableEq, Repr

/-- Embeds Rust `str::split` with a `char` pattern, on the character list of
the string: splitting an empty string yields `[[]]`, separators at the ends
yield empty pieces, exactly as in Rust. -/
def rustSplit (sep : Char) : List Char → List (List Char)
  | [] => [[]]
  | c :: rest =>
    if c = sep then [] :: rustSplit sep rest
    else
      match rustSplit sep rest with
      | [] => [[c]]
      | g :: gs => (c :: g) :: gs

/-- Embeds the per-path name derivation of `src/main.rs` lines 186-187:
`path.split('/')` indexed at 1, then `.split('.')` indexed at 0.
`none` models the panic of an out-of-bounds index. -/
def namePart (path : String) : Option String :=
  match (rustSplit '/' path.toList).get? 1 with
  | none => none
  | some second =>
    match (rustSplit '.' second).get? 0 with
    | none => none
    | some stem => some stem.asString

/-- The result of the ultra-strategy merge loop of `src/main.rs` lines 185-197:
a panic (indexing in the name derivation), a propagated error (file open or
deserialization), or the accumulated strategy name and merged element list. -/
inductive UltraRes where
  | panicked (msg : String)
  | errored (msg : String)
  | ok (name : String) (vec : List SwapPathSelected)
  deriving DecidableEq, Repr

/-- Embeds the loop of `src/main.rs` lines 185-197: for each `(index, path)`,
derive the name fragment (panicking on a path with no separator), fold it
into `ultra_strategy_name`, open and deserialize the file (`fs` is the file
system; `none` models an `Err` propagated by `?`), and extend the
accumulator with the file's `value`. -/
def ultraLoop (fs : String → Option VecSwapPathSelected) :
    Nat → String → List SwapPathSelected → List String → List Event × UltraRes
  | _, nm, acc, [] => ([], .ok nm acc)
  | i, nm, acc, p :: rest =>
    match namePart p with
    | none => ([], .panicked "index out of bounds")
    | some n0 =>
      let nm' := if i == 0 then toString i ++ "-" ++ n0
                 else nm ++ "-" ++ toString i ++ "-" ++ n0
      match fs p with
      | none => ([Event.fileRead p], .errored ("failed to read " ++ p))
      | some v =>
        match ultraLoop fs (i + 1) nm' (acc ++ v.value) rest with
        | (evs, res) => (Event.fileRead p :: evs, res)

/-- The hard-coded initial `path_best_strategy` of `src/main.rs` line 48. -/
def defaultPathBestStrategy : String :=
  "best_paths_selected/ultra_strategies/0-SOL-SOLLY-1-SOL-SPIKE-2-SOL-AMC-GME.json"

/-- The hard-coded `optimism_path` of `src/main.rs` line 51. -/
def optimismPath : String :=
  "optimism_transactions/11-6-2024-SOL-SOLLY-SOL-0.json"

/-- Outcomes of every external call `main` makes, supplied by the environment.
`main` is deterministic given a `World` and the configuration list.
`feedEvents` are the payloads delivered asynchronously to the socket
callback; `main` never reads them (the callback only prints). -/
structure World where
  connectResult : Except String Unit
  runResult : Nat → Except String String
  readStrategyFile : String → Option VecSwapPathSelected
  createFileOk : String → Bool
  writeFileOk : String → Bool
  dbInsertOk : Bool
  sortedOk : Bool
  optimismOk : Bool
  feedEvents : List Payload

/-- Embeds the sequential configuration loop of `src/main.rs` lines 164-181:
each `run_arbitrage_strategy` call is awaited in order, its error propagated
by `?`, and on success the returned strategy-file path is pushed onto
`vec_best_paths` (the ignored second tuple component is dropped, as in
`let (path_for_best_strategy, _) = result`). -/
def runsLoop (runResult : Nat → Except String String) :
    Nat → List InputVec → List Event × Except String (List String)
  | _, [] => ([], .ok [])
  | i, _ :: rest =>
    match runResult i with
    | .error e => ([], .error e)
    | .ok path =>
      match runsLoop runResult (i + 1) rest with
      | (evs, .ok paths) => (Event.arbitrageRun i path :: evs, .ok (path :: paths))
      | (evs, .error e) => (Event.arbitrageRun i path :: evs, .error e)

/-- Embeds the persistence of the merged strategy, `src/main.rs` lines
198-212: create the file at the derived path (failure logged via `map_err`,
then propagated by `?`), serialize and flush the merged
`VecSwapPathSelected`, then insert it into the document store under the
collection `"ultra_strategies"` (failure logged, then propagated). On
success the derived path is returned for `path_best_strategy`. -/
def persistUltra (w : World) (nm : String) (vec : List SwapPathSelected) :
    List Event × Except String String :=
  let path := "best_paths_selected/ultra_strategies/" ++ nm ++ ".json"
  let content : VecSwapPathSelected := ⟨vec⟩
  if w.createFileOk path then
    if w.writeFileOk path then
      if w.dbInsertOk then
        ([Event.fileCreateAttempt path, Event.fileWritten path content,
          Event.logged ("Written to " ++ path),
          Event.dbInsertAttempt "ultra_strategies",
          Event.dbInserted "ultra_strategies" content], .ok path)
      else
        ([Event.fileCreateAttempt path, Event.fileWritten path content,
          Event.logged ("Written to " ++ path),
          Event.dbInsertAttempt "ultra_strategies",
          Event.logged ("Failed to insert to ultra_strategies")],
         .error "document store insert failed")
    else
      ([Event.fileCreateAttempt path], .error ("failed to serialize to " ++ path))
  else
    ([Event.fileCreateAttempt path,
      Event.logged ("Failed to create file " ++ path)],
     .error ("failed to create " ++ path))

/-- Embeds the tail of `main` (`src/main.rs` lines 217-232): with
`massive_strategy` and `best_strategy` both hard-coded `true`,
`sorted_interesting_path_strategy` runs on `path_best_strategy` (its error
propagated by `?`), then `optimism_tx_strategy` runs on the hard-coded
optimism path. -/
def bestAndOptimism (w : World) (pathBest : String) : List Event × Outcome :=
  if w.sortedOk then
    if w.optimismOk then
      ([Event.bestStrategyRun pathBest, Event.optimismRun optimismPath], .ok)
    else
      ([Event.bestStrategyRun pathBest, Event.optimismRun optimismPath],
       .err "optimism_tx_strategy failed")
  else
    ([Event.bestStrategyRun pathBest], .err "sorted_interesting_path_strategy failed")

/-- Embeds `main` of `src/main.rs` with the option flags as hard-coded there
(`massive_strategy`, `best_strategy`, `optimism_strategy` all `true`),
parameterized over the session's configuration list `inputs` and the
external world. Control flow: socket connect (error propagated by `?`),
pool load, one arbitrage run per configuration in order, then — only when
`inputs.length > 1` — the ultra-strategy merge and its persistence, then
the best-strategy stage on the merged path (or on the hard-coded default
when no merge ran), then the optimism stage. -/
def mainRun (w : World) (inputs : List InputVec) : List Event × Outcome :=
  match w.connectResult with
  | .error e => ([], .err e)
  | .ok _ =>
    match runsLoop w.runResult 0 inputs with
    | (revs, .error e) => ([Event.connected, Event.poolsLoaded] ++ revs, .err e)
    | (revs, .ok paths) =>
      if 1 < inputs.length then
        match ultraLoop w.readStrategyFile 0 "" [] paths with
        | (uevs, .panicked m) =>
          ([Event.connected, Event.poolsLoaded] ++ revs ++ uevs, .panicked m)
        | (uevs, .errored m) =>
          ([Event.connected, Event.poolsLoaded] ++ revs ++ uevs, .err m)
        | (uevs, .ok nm vec) =>
          match persistUltra w nm vec with
          | (pevs, .error e) =>
            ([Event.connected, Event.poolsLoaded] ++ revs ++ uevs ++ pevs, .err e)
          | (pevs, .ok newPath) =>
            ([Event.connected, Event.poolsLoaded] ++ revs ++ uevs ++ pevs
               ++ (bestAndOptimism w newPath).1,
             (bestAndOptimism w newPath).2)
      else
        ([Event.connected, Event.poolsLoaded] ++ revs
           ++ (bestAndOptimism w defaultPathBestStrategy).1,
         (bestAndOptimism w defaultPathBestStrategy).2)

/-- Embeds the socket event callback of `src/main.rs` lines 137-145: its
match covers exactly the two payload variants, each merely printed. The
`Except` return type records that a handler could surface a failure to the
pipeline; this one never does. -/
def handleFeedEvent (p : Payload) : Except String Event :=
  match p with
  | .text data => .ok (.printed ("Received: " ++ data))
  | .binary data => .ok (.printed ("Received bytes: " ++ toString data))

/-- Embeds the socket error handler of `src/main.rs` line 150: the channel
error is logged and nothing is propagated. -/
def handleSocketError (e : String) : Event :=
  .logged ("Socket.IO error: " ++ e)

/-- Embeds `Config` of `src/common/config.rs`. -/
structure Config where
  private_key : String
  rpc_url : String
  deriving DecidableEq, Repr

/-- Embeds `Config::load` of `src/common/config.rs` lines 11-19 over the
process environment `getEnv` (after `dotenv`): `env::var("PRIVATE_KEY")`
and `env::var("RPC_URL")` are each unwrapped with `expect`, which panics
when the variable is unset — modelled by `none`; when both are set their
values are copied into the record unchanged. -/
def Config.load (getEnv : String → Option String) : Option Config :=
  match getEnv "PRIVATE_KEY" with
  | none => none
  | some pk =>
    match getEnv "RPC_URL" with
    | none => none
    | some url => some ⟨pk, url⟩

/-- A minimal JSON value model for the file-serialization contract. -/
inductive Json where
  | str (s : String)
  | num (n : Nat)
  | arr (xs : List Json)
  | obj (fields : List (String × Json))

/-- Modelled from the spec: serde's derived serialization of
`SwapPathSelected` (whose Rust definition is not under `src/`): an object
of the record's fields. -/
def serializeSwapPathSelected (s : SwapPathSelected) : Json :=
  .obj [("name", .str s.name), ("timestamp", .num s.timestamp)]

/-- Modelled from the spec: serde's derived serialization of
`VecSwapPathSelected`, the persisted file schema — an object with the
single field `value` holding the array of serialized elements. -/
def serializeVecSwapPathSelected (v : VecSwapPathSelected) : Json :=
  .obj [("value", .arr (v.value.map serializeSwapPathSelected))]

/-- Modelled from the spec: pairwise merge of two selections, "the
concatenation of inputs". Used to state associativity of aggregation. -/
def vecConcat (a b : VecSwapPathSelected) : VecSwapPathSelected :=
  ⟨a.value ++ b.value⟩

/-- Modelled from the spec: joining a list of strings with a single dash. -/
def joinDash : List String → String
  | [] => ""
  | [s] => s
  | s :: rest => s ++ "-" ++ joinDash rest

/-- Modelled from the spec: the merged strategy name — each run's
identifier prefixed by its zero-based run index, joined with a dash, in
run order. -/
def specUltraName (ids : List String) : String :=
  joinDash (ids.enum.map fun p => toString p.1 ++ "-" ++ p.2)

/-- The run identifier `src/main.rs` derives for one strategy-file path:
the dot-stem of the second slash-component (`default ""` is never used
when the derivation does not panic). -/
def stemOf (path : String) : String :=
  (namePart path).getD ""

def Event.isArbRun : Event → Bool
  | .arbitrageRun _ _ => true
  | _ => false

def Event.isFileRead : Event → Bool
  | .fileRead _ => true
  | _ => false

def Event.isFileWritten : Event → Bool
  | .fileWritten _ _ => true
  | _ => false

def Event.isDbInserted : Event → Bool
  | .dbInserted _ _ => true
  | _ => false

def Event.isFileCreateAttempt : Event → Bool
  | .fileCreateAttempt _ => true
  | _ => false

def Event.isDbInsertAttempt : Event → Bool
  | .dbInsertAttempt _ => true
  | _ => false

/-- `true` on the events only the merge-and-persist phase can produce. -/
def Event.isMergePhase : Event → Bool
  | .fileRead _ => true
  | .fileCreateAttempt _ => true
  | .fileWritten _ _ => true
  | .dbInsertAttempt _ => true
  | .dbInserted _ _ => true
  | _ => false

/-- The four-entry `inputs_vec` hard-coded in `src/main.rs` lines 53-122. -/
def inputsVecDefault : List InputVec :=
  [{ tokens_to_arb :=
       [⟨"So11111111111111111111111111111111111111112", "SOL"⟩,
        ⟨"4Cnk9EPnW5ixfLZatCPJjDB1PUtcRpVVgTQukm9epump", "DADDY-ANSEM"⟩],
     include_1hop := true, include_2hop := true,
     numbers_of_best_paths := 4, get_fresh_pools_bool := false },
   { tokens_to_arb :=
       [⟨"So11111111111111111111111111111111111111112", "SOL"⟩,
        ⟨"2J5uSgqgarWoh7QDBmHSDA3d7UbfBKDZsdy1ypTSpump", "DADDY-TATE"⟩],
     include_1hop := true, include_2hop := true,
     numbers_of_best_paths := 4, get_fresh_pools_bool := false },
   { tokens_to_arb :=
       [⟨"So11111111111111111111111111111111111111112", "SOL"⟩,
        ⟨"BX9yEgW8WkoWV8SvqTMMCynkQWreRTJ9ZS81dRXYnnR9", "SPIKE"⟩],
     include_1hop := true, include_2hop := true,
     numbers_of_best_paths := 2, get_fresh_pools_bool := false },
   { tokens_to_arb :=
       [⟨"So11111111111111111111111111111111111111112", "SOL"⟩,
        ⟨"9jaZhJM6nMHTo4hY9DGabQ1HNuUWhJtm7js1fmKMVpkN", "AMC"⟩,
        ⟨"8wXtPeU6557ETkp9WHFY1n1EcU6NxDvbAggHGsMYiHsB", "GME"⟩],
     include_1hop := true, include_2hop := true,
     numbers_of_best_paths := 4, get_fresh_pools_bool := false }]

/-- A fully successful external world, used to instantiate hypotheses at
concrete inputs: every run returns a two-component strategy path, every
file read yields a one-element selection named after the file. -/
def goodWorld : World where
  connectResult := .ok ()
  runResult := fun i => .ok ("best_paths_selected/RUN" ++ toString i ++ ".json")
  readStrategyFile := fun p => some ⟨[⟨p, 0⟩]⟩
  createFileOk := fun _ => true
  writeFileOk := fun _ => true
  dbInsertOk := true
  sortedOk := true
  optimismOk := true
  feedEvents := []

/-- The dash-separated suffix the merge loop appends for the runs from
index `i` on: one `-index-identifier` block per run. -/
def dashFrom (i : Nat) : List String → String
  | [] => ""
  | s :: rest => "-" ++ toString i ++ "-" ++ s ++ dashFrom (i + 1) rest

/-- A session world whose socket connect fails. -/
def badConnectWorld : World :=
  { goodWorld with connectResult := .error "connection refused" }

/-- A session world whose single run persists its selection at a fixed
path. -/
def soloWorld : World :=
  { goodWorld with runResult := fun _ => .ok "best_paths_selected/solo.json" }

/-- A session world whose merged-strategy file creation fails. -/
def badPersistWorld : World :=
  { goodWorld with createFileOk := fun _ => false }

/-- One configuration entry used for concrete single-run sessions (its
token content is irrelevant to the driver's control flow). -/
def inputsOne : List InputVec :=
  [{ tokens_to_arb := [⟨"So11111111111111111111111111111111111111112", "SOL"⟩],
     include_1hop := true, include_2hop := true,
     numbers_of_best_paths := 4, get_fresh_pools_bool := false }]

/-- Two configuration entries used for concrete multi-run sessions. -/
def inputsTwo : List InputVec :=
  [{ tokens_to_arb := [⟨"So11111111111111111111111111111111111111112", "SOL"⟩],
     include_1hop := true, include_2hop := true,
     numbers_of_best_paths := 4, get_fresh_pools_bool := false },
   { tokens_to_arb := [⟨"So11111111111111111111111111111111111111112", "SOL"⟩],
     include_1hop := true, include_2hop := false,
     numbers_of_best_paths := 2, get_fresh_pools_bool := false }]

/-- A two-file strategy store for concrete merges. -/
def fsTwo : String → Option VecSwapPathSelected := fun p =>
  if p = "x/a.json" then some ⟨[⟨"A", 0⟩]⟩
  else if p = "x/b.json" then some ⟨[⟨"B", 1⟩]⟩
  else none

/-- A process environment with both required variables set. -/
def envBoth : String → Option String := fun s =>
  if s = "PRIVATE_KEY" then some "pk123"
  else if s = "RPC_URL" then some "https://rpc.example" else none

/-! ## Helper lemmas -/

theorem rustSplit_ne_nil (sep : Char) (l : List Char) : rustSplit sep l ≠ [] := by
  cases l with
  | nil => simp [rustSplit]
  | cons c rest =>
    simp only [rustSplit]
    split
    · simp
    · split <;> simp

theorem rustSplit_of_not_mem (sep : Char) :
    ∀ l : List Char, sep ∉ l → rustSplit sep l = [l]
  | [], _ => rfl
  | c :: rest, h => by
    have hc : ¬(c = sep) := fun e => h (e ▸ List.mem_cons_self c rest)
    have ih := rustSplit_of_not_mem sep rest (fun m => h (List.mem_cons_of_mem c m))
    simp [rustSplit, hc, ih]

theorem namePart_eq_none_of_no_slash (s : String) (h : '/' ∉ s.toList) :
    namePart s = none := by
  unfold namePart
  rw [rustSplit_of_not_mem '/' s.toList h]
  rfl

theorem joinDash_cons_cons (a b : String) (l : List String) :
    joinDash (a :: b :: l) = a ++ "-" ++ joinDash (b :: l) := rfl

theorem runsLoop_ok (r : Nat → Except String String) :
    ∀ (inputs : List InputVec) (i : Nat) (evs : List Event) (paths : List String),
    runsLoop r i inputs = (evs, .ok paths) →
    paths.length = inputs.length ∧
    evs = (List.enumFrom i paths).map fun p => Event.arbitrageRun p.1 p.2 := by
  intro inputs
  induction inputs with
  | nil =>
    intro i evs paths h
    simp only [runsLoop, Prod.mk.injEq] at h
    obtain ⟨he, hp⟩ := h
    cases hp
    simp [he.symm]
  | cons a rest ih =>
    intro i evs paths h
    simp only [runsLoop] at h
    cases hr : r i with
    | error e => rw [hr] at h; simp at h
    | ok path =>
      rw [hr] at h
      cases hrec : runsLoop r (i + 1) rest with
      | mk evs' res =>
        cases res with
        | error e => rw [hrec] at h; simp at h
        | ok paths' =>
          rw [hrec] at h
          simp only [Prod.mk.injEq, Except.ok.injEq] at h
          obtain ⟨he, hp⟩ := h
          obtain ⟨hlen, hevs⟩ := ih (i + 1) evs' paths' hrec
          subst hp
          subst he
          constructor
          · simp [hlen]
          · simp [List.enumFrom, hevs]

theorem ultraLoop_ok (fs : String → Option VecSwapPathSelected) :
    ∀ (paths : List String) (i : Nat) (nm : String) (acc : List SwapPathSelected)
      (evs : List Event) (nm' : String) (vec : List SwapPathSelected),
    ultraLoop fs i nm acc paths = (evs, .ok nm' vec) →
    evs = paths.map Event.fileRead ∧
    vec = acc ++ (paths.map fun p => ((fs p).getD ⟨[]⟩).value).flatten := by
  intro paths
  induction paths with
  | nil =>
    intro i nm acc evs nm' vec h
    simp only [ultraLoop, Prod.mk.injEq, UltraRes.ok.injEq] at h
    obtain ⟨he, _, hv⟩ := h
    simp [he.symm, hv.symm]
  | cons p rest ih =>
    intro i nm acc evs nm' vec h
    simp only [ultraLoop] at h
    cases hn : namePart p with
    | none => rw [hn] at h; simp at h
    | some n0 =>
      rw [hn] at h
      cases hf : fs p with
      | none => rw [hf] at h; simp at h
      | some v =>
        rw [hf] at h
        simp only at h
        cases hrec : ultraLoop fs (i + 1)
            (if i == 0 then toString i ++ "-" ++ n0
             else nm ++ "-" ++ toString i ++ "-" ++ n0) (acc ++ v.value) rest with
        | mk evs' res =>
          rw [hrec] at h
          cases res with
          | panicked m => simp at h
          | errored m => simp at h
          | ok nm'' vec'' =>
            simp only [Prod.mk.injEq, UltraRes.ok.injEq] at h
            obtain ⟨he, _, hv⟩ := h
            obtain ⟨hevs, hvec⟩ := ih (i + 1) _ (acc ++ v.value) evs' nm'' vec'' hrec
            subst he
            subst hv
            constructor
            · simp [hevs]
            · simp [hvec, hf, List.append_assoc]

theorem ultraLoop_name_of_one_le (fs : String → Option VecSwapPathSelected) :
    ∀ (paths : List String) (i : Nat) (nm : String) (acc : List SwapPathSelected)
      (evs : List Event) (nm' : String) (vec : List SwapPathSelected),
    1 ≤ i →
    ultraLoop fs i nm acc paths = (evs, .ok nm' vec) →
    nm' = nm ++ dashFrom i (paths.map stemOf) := by
  intro paths
  induction paths with
  | nil =>
    intro i nm acc evs nm' vec _ h
    simp only [ultraLoop, Prod.mk.injEq, UltraRes.ok.injEq] at h
    obtain ⟨_, hn, _⟩ := h
    simp [hn.symm, dashFrom, String.append_empty]
  | cons p rest ih =>
    intro i nm acc evs nm' vec hi h
    have hi0 : (i == 0) = false := by
      cases i with
      | zero => omega
      | succ n => rfl
    simp only [ultraLoop, hi0, Bool.false_eq_true, if_false] at h
    cases hn : namePart p with
    | none => rw [hn] at h; simp at h
    | some n0 =>
      rw [hn] at h
      cases hf : fs p with
      | none => rw [hf] at h; simp at h
      | some v =>
        rw [hf] at h
        simp only at h
        cases hrec : ultraLoop fs (i + 1) (nm ++ "-" ++ toString i ++ "-" ++ n0)
            (acc ++ v.value) rest with
        | mk evs' res =>
          rw [hrec] at h
          cases res with
          | panicked m => simp at h
          | errored m => simp at h
          | ok nm'' vec'' =>
            simp only [Prod.mk.injEq, UltraRes.ok.injEq] at h
            obtain ⟨_, hnm, _⟩ := h
            have := ih (i + 1) _ (acc ++ v.value) evs' nm'' vec'' (by omega) hrec
            subst hnm
            rw [this]
            simp only [dashFrom, List.map_cons, stemOf, hn, Option.getD_some]
            simp [String.append_assoc]

theorem append_dashFrom_eq_joinDash :
    ∀ (ss : List String) (i : Nat) (x : String),
    x ++ dashFrom i ss =
      joinDash (x :: (List.enumFrom i ss).map fun p => toString p.1 ++ "-" ++ p.2) := by
  intro ss
  induction ss with
  | nil => intro i x; simp [dashFrom, joinDash, String.append_empty]
  | cons s rest ih =>
    intro i x
    simp only [List.enumFrom, List.map_cons]
    rw [joinDash_cons_cons, ← ih (i + 1) (toString i ++ "-" ++ s)]
    simp [dashFrom, String.append_assoc]

theorem ultraLoop_ok_name (fs : String → Option VecSwapPathSelected)
    (paths : List String) (evs : List Event) (nm : String)
    (vec : List SwapPathSelected)
    (h : ultraLoop fs 0 "" [] paths = (evs, .ok nm vec)) :
    nm = specUltraName (paths.map stemOf) := by
  cases paths with
  | nil =>
    simp only [ultraLoop, Prod.mk.injEq, UltraRes.ok.injEq] at h
    obtain ⟨_, hn, _⟩ := h
    simp [hn.symm, specUltraName, joinDash]
  | cons p rest =>
    simp only [ultraLoop] at h
    cases hn : namePart p with
    | none => rw [hn] at h; simp at h
    | some n0 =>
      rw [hn] at h
      cases hf : fs p with
      | none => rw [hf] at h; simp at h
      | some v =>
        rw [hf] at h
        simp only [beq_self_eq_true, if_true] at h
        cases hrec : ultraLoop fs 1 (toString 0 ++ "-" ++ n0) ([] ++ v.value) rest with
        | mk evs' res =>
          rw [hrec] at h
          cases res with
          | panicked m => simp at h
          | errored m => simp at h
          | ok nm'' vec'' =>
            simp only [Prod.mk.injEq, UltraRes.ok.injEq] at h
            obtain ⟨_, hnm, _⟩ := h
            have hname := ultraLoop_name_of_one_le fs rest 1 (toString 0 ++ "-" ++ n0)
              ([] ++ v.value) evs' nm'' vec'' (by omega) hrec
            subst hnm
            rw [hname, append_dashFrom_eq_joinDash]
            simp only [specUltraName, List.enum, List.map_cons, List.enumFrom,
              stemOf, hn, Option.getD_some]

theorem ultraLoop_events_fileRead (fs : String → Option VecSwapPathSelected) :
    ∀ (paths : List String) (i : Nat) (nm : String) (acc : List SwapPathSelected),
    ∀ e ∈ (ultraLoop fs i nm acc paths).1, e.isFileRead = true := by
  intro paths
  induction paths with
  | nil => intro i nm acc e he; simp [ultraLoop] at he
  | cons p rest ih =>
    intro i nm acc e he
    simp only [ultraLoop] at he
    cases hn : namePart p with
    | none => rw [hn] at he; simp at he
    | some n0 =>
      rw [hn] at he
      cases hf : fs p with
      | none =>
        rw [hf] at he
        simp only [List.mem_singleton] at he
        subst he; rfl
      | some v =>
        rw [hf] at he
        simp only at he
        cases hrec : ultraLoop fs (i + 1)
            (if i == 0 then toString i ++ "-" ++ n0
             else nm ++ "-" ++ toString i ++ "-" ++ n0) (acc ++ v.value) rest with
        | mk evs' res =>
          rw [hrec] at he
          simp only [List.mem_cons] at he
          cases he with
          | inl h1 => subst h1; rfl
          | inr h2 =>
            have := ih (i + 1)
              (if i == 0 then toString i ++ "-" ++ n0
               else nm ++ "-" ++ toString i ++ "-" ++ n0) (acc ++ v.value) e
            rw [hrec] at this
            exact this h2

theorem ultraLoop_panic_of_no_slash (fs : String → Option VecSwapPathSelected)
    (i : Nat) (nm : String) (acc : List SwapPathSelected) (p : String)
    (rest : List String) (h : '/' ∉ p.toList) :
    ultraLoop fs i nm acc (p :: rest) = ([], .panicked "index out of bounds") := by
  simp [ultraLoop, namePart_eq_none_of_no_slash p h]

theorem persistUltra_events_classified (w : World) (nm : String)
    (vec : List SwapPathSelected) :
    ∀ e ∈ (persistUltra w nm vec).1,
      e.isArbRun = false ∧ e.isFileRead = false := by
  intro e he
  unfold persistUltra at he
  by_cases h1 : w.createFileOk ("best_paths_selected/ultra_strategies/" ++ nm ++ ".json") = true
  · rw [if_pos h1] at he
    by_cases h2 : w.writeFileOk ("best_paths_selected/ultra_strategies/" ++ nm ++ ".json") = true
    · rw [if_pos h2] at he
      by_cases h3 : w.dbInsertOk = true
      · rw [if_pos h3] at he
        simp only [List.mem_cons, List.not_mem_nil, or_false] at he
        rcases he with h | h | h | h | h <;> subst h <;> exact ⟨rfl, rfl⟩
      · rw [if_neg h3] at he
        simp only [List.mem_cons, List.not_mem_nil, or_false] at he
        rcases he with h | h | h | h | h <;> subst h <;> exact ⟨rfl, rfl⟩
    · rw [if_neg h2] at he
      simp only [List.mem_singleton] at he
      subst he; exact ⟨rfl, rfl⟩
  · rw [if_neg h1] at he
    simp only [List.mem_cons, List.not_mem_nil, or_false] at he
    rcases he with h | h <;> subst h <;> exact ⟨rfl, rfl⟩

theorem bestAndOptimism_events_classified (w : World) (pathBest : String) :
    ∀ e ∈ (bestAndOptimism w pathBest).1,
      e.isArbRun = false ∧ e.isFileRead = false ∧ e.isMergePhase = false := by
  intro e he
  unfold bestAndOptimism at he
  by_cases h1 : w.sortedOk = true
  · rw [if_pos h1] at he
    by_cases h2 : w.optimismOk = true
    · rw [if_pos h2] at he
      simp only [List.mem_cons, List.not_mem_nil, or_false] at he
      rcases he with h | h <;> subst h <;> exact ⟨rfl, rfl, rfl⟩
    · rw [if_neg h2] at he
      simp only [List.mem_cons, List.not_mem_nil, or_false] at he
      rcases he with h | h <;> subst h <;> exact ⟨rfl, rfl, rfl⟩
  · rw [if_neg h1] at he
    simp only [List.mem_singleton] at he
    subst he; exact ⟨rfl, rfl, rfl⟩

theorem runsLoop_mem_shape (r : Nat → Except String String) (inputs : List InputVec)
    (i : Nat) (revs : List Event) (paths : List String)
    (h : runsLoop r i inputs = (revs, .ok paths)) :
    ∀ e ∈ revs, ∃ k q, e = Event.arbitrageRun k q := by
  obtain ⟨_, hevs⟩ := runsLoop_ok r inputs i revs paths h
  subst hevs
  intro e he
  simp only [List.mem_map] at he
  obtain ⟨p, _, hp⟩ := he
  exact ⟨p.1, p.2, hp.symm⟩

theorem mainRun_eq_persist_error (w : World) (inputs : List InputVec)
    (revs : List Event) (paths : List String) (uevs : List Event) (nm : String)
    (vec : List SwapPathSelected) (pevs : List Event) (m : String)
    (hc : w.connectResult = .ok ())
    (hr : runsLoop w.runResult 0 inputs = (revs, .ok paths))
    (hl : 1 < inputs.length)
    (hu : ultraLoop w.readStrategyFile 0 "" [] paths = (uevs, .ok nm vec))
    (hp : persistUltra w nm vec = (pevs, .error m)) :
    mainRun w inputs =
      ([Event.connected, Event.poolsLoaded] ++ revs ++ uevs ++ pevs, .err m) := by
  simp only [mainRun, hc, hr, hu, hp, if_pos hl]

theorem mainRun_eq_persist_ok (w : World) (inputs : List InputVec)
    (revs : List Event) (paths : List String) (uevs : List Event) (nm : String)
    (vec : List SwapPathSelected) (pevs : List Event) (newPath : String)
    (hc : w.connectResult = .ok ())
    (hr : runsLoop w.runResult 0 inputs = (revs, .ok paths))
    (hl : 1 < inputs.length)
    (hu : ultraLoop w.readStrategyFile 0 "" [] paths = (uevs, .ok nm vec))
    (hp : persistUltra w nm vec = (pevs, .ok newPath)) :
    mainRun w inputs =
      ([Event.connected, Event.poolsLoaded] ++ revs ++ uevs ++ pevs
         ++ (bestAndOptimism w newPath).1,
       (bestAndOptimism w newPath).2) := by
  simp only [mainRun, hc, hr, hu, hp, if_pos hl]

theorem mainRun_eq_single (w : World) (inputs : List InputVec)
    (revs : List Event) (paths : List String)
    (hc : w.connectResult = .ok ())
    (hr : runsLoop w.runResult 0 inputs = (revs, .ok paths))
    (hl : ¬1 < inputs.length) :
    mainRun w inputs =
      ([Event.connected, Event.poolsLoaded] ++ revs
         ++ (bestAndOptimism w defaultPathBestStrategy).1,
       (bestAndOptimism w defaultPathBestStrategy).2) := by
  simp only [mainRun, hc, hr, if_neg hl]

theorem fileRead_flags (e : Event) (h : e.isFileRead = true) :
    e.isArbRun = false ∧ e.isFileWritten = false ∧ e.isDbInserted = false ∧
    e.isFileCreateAttempt = false ∧ e.isDbInsertAttempt = false := by
  cases e <;> simp_all [Event.isFileRead, Event.isArbRun, Event.isFileWritten,
    Event.isDbInserted, Event.isFileCreateAttempt, Event.isDbInsertAttempt]

theorem not_mergePhase_flags (e : Event) (h : e.isMergePhase = false) :
    e.isFileWritten = false ∧ e.isDbInserted = false ∧
    e.isFileCreateAttempt = false ∧ e.isDbInsertAttempt = false ∧
    e.isFileRead = false := by
  cases e <;> simp_all [Event.isMergePhase, Event.isFileWritten,
    Event.isDbInserted, Event.isFileCreateAttempt, Event.isDbInsertAttempt,
    Event.isFileRead]

theorem persistUltra_ok_shape (w : World) (nm : String)
    (vec : List SwapPathSelected) (pevs : List Event) (newPath : String)
    (hp : persistUltra w nm vec = (pevs, .ok newPath)) :
    newPath = "best_paths_selected/ultra_strategies/" ++ nm ++ ".json" ∧
    pevs = [Event.fileCreateAttempt newPath,
            Event.fileWritten newPath ⟨vec⟩,
            Event.logged ("Written to " ++ newPath),
            Event.dbInsertAttempt "ultra_strategies",
            Event.dbInserted "ultra_strategies" ⟨vec⟩] := by
  unfold persistUltra at hp
  by_cases h1 :
      w.createFileOk ("best_paths_selected/ultra_strategies/" ++ nm ++ ".json") = true
  · rw [if_pos h1] at hp
    by_cases h2 :
        w.writeFileOk ("best_paths_selected/ultra_strategies/" ++ nm ++ ".json") = true
    · rw [if_pos h2] at hp
      by_cases h3 : w.dbInsertOk = true
      · rw [if_pos h3] at hp
        simp only [Prod.mk.injEq, Except.ok.injEq] at hp
        obtain ⟨he, hn⟩ := hp
        subst hn
        exact ⟨rfl, he.symm⟩
      · rw [if_neg h3] at hp
        simp at hp
    · rw [if_neg h2] at hp
      simp at hp
  · rw [if_neg h1] at hp
    simp at hp

theorem persistUltra_attempt_bounds (w : World) (nm : String)
    (vec : List SwapPathSelected) :
    ((persistUltra w nm vec).1.filter Event.isFileCreateAttempt).length ≤ 1 ∧
    ((persistUltra w nm vec).1.filter Event.isDbInsertAttempt).length ≤ 1 := by
  unfold persistUltra
  by_cases h1 :
      w.createFileOk ("best_paths_selected/ultra_strategies/" ++ nm ++ ".json") = true
  · rw [if_pos h1]
    by_cases h2 :
        w.writeFileOk ("best_paths_selected/ultra_strategies/" ++ nm ++ ".json") = true
    · rw [if_pos h2]
      by_cases h3 : w.dbInsertOk = true
      · rw [if_pos h3]
        simp [Event.isFileCreateAttempt, Event.isDbInsertAttempt, List.filter]
      · rw [if_neg h3]
        simp [Event.isFileCreateAttempt, Event.isDbInsertAttempt, List.filter]
    · rw [if_neg h2]
      simp [Event.isFileCreateAttempt, Event.isDbInsertAttempt, List.filter]
  · rw [if_neg h1]
    simp [Event.isFileCreateAttempt, Event.isDbInsertAttempt, List.filter]

theorem mainRun_eq_ultra_panicked (w : World) (inputs : List InputVec)
    (revs : List Event) (paths : List String) (uevs : List Event) (m : String)
    (hc : w.connectResult = .ok ())
    (hr : runsLoop w.runResult 0 inputs = (revs, .ok paths))
    (hl : 1 < inputs.length)
    (hu : ultraLoop w.readStrategyFile 0 "" [] paths = (uevs, .panicked m)) :
    mainRun w inputs =
      ([Event.connected, Event.poolsLoaded] ++ revs ++ uevs, .panicked m) := by
  simp only [mainRun, hc, hr, hu, if_pos hl]

theorem mainRun_eq_ultra_errored (w : World) (inputs : List InputVec)
    (revs : List Event) (paths : List String) (uevs : List Event) (m : String)
    (hc : w.connectResult = .ok ())
    (hr : runsLoop w.runResult 0 inputs = (revs, .ok paths))
    (hl : 1 < inputs.length)
    (hu : ultraLoop w.readStrategyFile 0 "" [] paths = (uevs, .errored m)) :
    mainRun w inputs =
      ([Event.connected, Event.poolsLoaded] ++ revs ++ uevs, .err m) := by
  simp only [mainRun, hc, hr, hu, if_pos hl]

/-! ## Claim theorems -/

/-- C1: the Strategy Aggregator's output `VecSwapPathSelected` has as its
value exactly the run-order concatenation of the input selections' values —
no re-ranking, re-ordering, dropping or duplication — and pairwise merging
by concatenation is associative. -/
theorem c1_aggregation_is_ordered_concat :
    (∀ (fs : String → Option VecSwapPathSelected) (paths : List String)
       (evs : List Event) (nm : String) (vec : List SwapPathSelected),
       ultraLoop fs 0 "" [] paths = (evs, .ok nm vec) →
       vec = (paths.map fun p => ((fs p).getD ⟨[]⟩).value).flatten) ∧
    (∀ a b c : VecSwapPathSelected,
       vecConcat (vecConcat a b) c = vecConcat a (vecConcat b c)) := by
  constructor
  · intro fs paths evs nm vec h
    have hv := (ultraLoop_ok fs paths 0 "" [] evs nm vec h).2
    simpa using hv
  · intro a b c
    simp [vecConcat, List.append_assoc]

theorem c1_witness :
    ([⟨"A", 0⟩, ⟨"B", 1⟩] : List SwapPathSelected) =
      (["x/a.json", "x/b.json"].map fun p => ((fsTwo p).getD ⟨[]⟩).value).flatten :=
  c1_aggregation_is_ordered_concat.1 fsTwo ["x/a.json", "x/b.json"]
    [Event.fileRead "x/a.json", Event.fileRead "x/b.json"] "0-a-1-b"
    [⟨"A", 0⟩, ⟨"B", 1⟩] rfl

/-- C2 counterexample: in the concrete session whose live-feed connect
fails, the connect error is propagated as the session's result and no
arbitrage stage runs — refuting "logged but does not block or abort the
rest of the pipeline, the arbitrage stages still run". -/
theorem c2_counterexample_connect_failure_blocks :
    (mainRun badConnectWorld inputsVecDefault).2 = Outcome.err "connection refused" ∧
    (mainRun badConnectWorld inputsVecDefault).1.filter Event.isArbRun = [] :=
  ⟨rfl, rfl⟩

/-- C2 (amended): a failure to establish the live-feed subscription at
session start aborts the whole pipeline: the connect error is propagated
by `?` as the session's error and nothing else runs (no events at all). -/
theorem c2_amended_connect_failure_aborts :
    ∀ (w : World) (inputs : List InputVec) (e : String),
    w.connectResult = .error e →
    mainRun w inputs = ([], Outcome.err e) := by
  intro w inputs e h
  simp [mainRun, h]

theorem c2_amended_witness :
    mainRun badConnectWorld inputsVecDefault = ([], Outcome.err "connection refused") :=
  c2_amended_connect_failure_aborts badConnectWorld inputsVecDefault
    "connection refused" rfl

/-- C4: the merged strategy name is the run-order join of the originating
run identifiers, each prefixed by its zero-based run index and joined with
a dash, and the merged output value is the concatenation of the inputs. -/
theorem c4_merged_name_and_value :
    ∀ (fs : String → Option VecSwapPathSelected) (paths : List String)
      (evs : List Event) (nm : String) (vec : List SwapPathSelected),
    ultraLoop fs 0 "" [] paths = (evs, .ok nm vec) →
    nm = specUltraName (paths.map stemOf) ∧
    vec = (paths.map fun p => ((fs p).getD ⟨[]⟩).value).flatten := by
  intro fs paths evs nm vec h
  refine ⟨ultraLoop_ok_name fs paths evs nm vec h, ?_⟩
  have hv := (ultraLoop_ok fs paths 0 "" [] evs nm vec h).2
  simpa using hv

theorem c4_witness :
    "0-a-1-b" = specUltraName (["x/a.json", "x/b.json"].map stemOf) :=
  (c4_merged_name_and_value fsTwo ["x/a.json", "x/b.json"]
    [Event.fileRead "x/a.json", Event.fileRead "x/b.json"] "0-a-1-b"
    [⟨"A", 0⟩, ⟨"B", 1⟩] rfl).1

/-- C7: the feed callback covers exactly the two payload variants, each is
decoded to a plain print, channel errors are only logged, and the session's
pipeline result is unaffected by whatever payloads the feed delivers. -/
theorem c7_feed_events_never_fail_pipeline :
    (∀ p : Payload, (∃ d, p = Payload.text d) ∨ (∃ d, p = Payload.binary d)) ∧
    (∀ p : Payload, ∃ m, handleFeedEvent p = .ok (Event.printed m)) ∧
    (∀ e, handleSocketError e = Event.logged ("Socket.IO error: " ++ e)) ∧
    (∀ (w : World) (inputs : List InputVec) (f : List Payload),
       mainRun { w with feedEvents := f } inputs = mainRun w inputs) := by
  refine ⟨?_, ?_, ?_, ?_⟩
  · intro p
    cases p with
    | text d => exact Or.inl ⟨d, rfl⟩
    | binary d => exact Or.inr ⟨d, rfl⟩
  · intro p
    cases p with
    | text d => exact ⟨"Received: " ++ d, rfl⟩
    | binary d => exact ⟨"Received bytes: " ++ toString d, rfl⟩
  · intro e
    rfl
  · intro w inputs f
    cases w
    rfl

/-- C9: `Config::load` copies `PRIVATE_KEY` and `RPC_URL` verbatim from the
environment when both are set, and panics (modelled by `none`, as opposed
to returning an error value) when either is unset. -/
theorem c9_config_load_env :
    (∀ (getEnv : String → Option String) (pk url : String),
       getEnv "PRIVATE_KEY" = some pk → getEnv "RPC_URL" = some url →
       Config.load getEnv = some ⟨pk, url⟩) ∧
    (∀ getEnv : String → Option String,
       getEnv "PRIVATE_KEY" = none ∨ getEnv "RPC_URL" = none →
       Config.load getEnv = none) := by
  constructor
  · intro g pk url h1 h2
    simp [Config.load, h1, h2]
  · intro g h
    cases h with
    | inl h1 => simp [Config.load, h1]
    | inr h2 =>
      cases h1 : g "PRIVATE_KEY" with
      | none => simp [Config.load, h1]
      | some pk => simp [Config.load, h1, h2]

theorem c9_witness :
    Config.load envBoth = some ⟨"pk123", "https://rpc.example"⟩ :=
  c9_config_load_env.1 envBoth "pk123" "https://rpc.example" rfl rfl

/-- C10: a strategy path without a slash makes the name derivation index
past the end of the split result, a panic (none); the merge loop panics on
such a path; and the dot-split always has a first element, so the slash
indexing is the only out-of-bounds risk. -/
theorem c10_no_slash_panics :
    (∀ s : String, '/' ∉ s.toList → namePart s = none) ∧
    (∀ (fs : String → Option VecSwapPathSelected) (i : Nat) (nm : String)
       (acc : List SwapPathSelected) (p : String) (rest : List String),
       '/' ∉ p.toList →
       ultraLoop fs i nm acc (p :: rest) = ([], .panicked "index out of bounds")) ∧
    (∀ t : List Char, rustSplit '.' t ≠ []) :=
  ⟨namePart_eq_none_of_no_slash,
   fun fs i nm acc p rest h => ultraLoop_panic_of_no_slash fs i nm acc p rest h,
   rustSplit_ne_nil '.'⟩

theorem c10_witness :
    '/' ∉ ("nopath.json" : String).toList ∧ namePart "nopath.json" = none :=
  ⟨by decide, c10_no_slash_panics.1 "nopath.json" (by decide)⟩

/-- C3: when persisting the merged strategy fails — at file creation, file
serialization, or document-store insert — the failure is the session's
returned error, each sink is attempted at most once (no automatic retry),
and the already-completed arbitrage runs' events remain in the trace
untouched. -/
theorem c3_persistence_failure_surfaced :
    ∀ (w : World) (inputs : List InputVec) (revs : List Event)
      (paths : List String) (uevs : List Event) (nm : String)
      (vec : List SwapPathSelected) (pevs : List Event) (m : String),
    w.connectResult = .ok () →
    runsLoop w.runResult 0 inputs = (revs, .ok paths) →
    1 < inputs.length →
    ultraLoop w.readStrategyFile 0 "" [] paths = (uevs, .ok nm vec) →
    persistUltra w nm vec = (pevs, .error m) →
    (mainRun w inputs).2 = .err m ∧
    (mainRun w inputs).1.filter Event.isArbRun = revs ∧
    ((mainRun w inputs).1.filter Event.isFileCreateAttempt).length ≤ 1 ∧
    ((mainRun w inputs).1.filter Event.isDbInsertAttempt).length ≤ 1 := by
  intro w inputs revs paths uevs nm vec pevs m hc hr hl hu hp
  rw [mainRun_eq_persist_error w inputs revs paths uevs nm vec pevs m hc hr hl hu hp]
  have hu_evs : ∀ e ∈ uevs, e.isFileRead = true := by
    intro e he
    have hh := ultraLoop_events_fileRead w.readStrategyFile paths 0 "" [] e
    rw [hu] at hh
    exact hh he
  have hrev_arb : revs.filter Event.isArbRun = revs := by
    refine List.filter_eq_self.mpr ?_
    intro e he
    obtain ⟨k, q, hkq⟩ := runsLoop_mem_shape w.runResult inputs 0 revs paths hr e he
    subst hkq; rfl
  have hu_arb : uevs.filter Event.isArbRun = [] := by
    refine List.filter_eq_nil_iff.mpr ?_
    intro e he
    simp [(fileRead_flags e (hu_evs e he)).1]
  have hp_arb : pevs.filter Event.isArbRun = [] := by
    refine List.filter_eq_nil_iff.mpr ?_
    intro e he
    have hcl := persistUltra_events_classified w nm vec e
    rw [hp] at hcl
    simp [(hcl he).1]
  have hrev_cr : revs.filter Event.isFileCreateAttempt = [] := by
    refine List.filter_eq_nil_iff.mpr ?_
    intro e he
    obtain ⟨k, q, hkq⟩ := runsLoop_mem_shape w.runResult inputs 0 revs paths hr e he
    subst hkq; simp [Event.isFileCreateAttempt]
  have hu_cr : uevs.filter Event.isFileCreateAttempt = [] := by
    refine List.filter_eq_nil_iff.mpr ?_
    intro e he
    simp [(fileRead_flags e (hu_evs e he)).2.2.2.1]
  have hrev_db : revs.filter Event.isDbInsertAttempt = [] := by
    refine List.filter_eq_nil_iff.mpr ?_
    intro e he
    obtain ⟨k, q, hkq⟩ := runsLoop_mem_shape w.runResult inputs 0 revs paths hr e he
    subst hkq; simp [Event.isDbInsertAttempt]
  have hu_db : uevs.filter Event.isDbInsertAttempt = [] := by
    refine List.filter_eq_nil_iff.mpr ?_
    intro e he
    simp [(fileRead_flags e (hu_evs e he)).2.2.2.2]
  refine ⟨rfl, ?_, ?_, ?_⟩
  · have h0 : ([Event.connected, Event.poolsLoaded] : List Event).filter
        Event.isArbRun = [] := rfl
    simp only [List.filter_append, h0, hrev_arb, hu_arb, hp_arb,
      List.nil_append, List.append_nil]
  · have hb := (persistUltra_attempt_bounds w nm vec).1
    rw [hp] at hb
    have h0 : ([Event.connected, Event.poolsLoaded] : List Event).filter
        Event.isFileCreateAttempt = [] := rfl
    simp only [List.filter_append, h0, hrev_cr, hu_cr, List.nil_append]
    exact hb
  · have hb := (persistUltra_attempt_bounds w nm vec).2
    rw [hp] at hb
    have h0 : ([Event.connected, Event.poolsLoaded] : List Event).filter
        Event.isDbInsertAttempt = [] := rfl
    simp only [List.filter_append, h0, hrev_db, hu_db, List.nil_append]
    exact hb

theorem c3_witness :
    (mainRun badPersistWorld inputsTwo).2 =
      Outcome.err
        "failed to create best_paths_selected/ultra_strategies/0-RUN0-1-RUN1.json" :=
  (c3_persistence_failure_surfaced badPersistWorld inputsTwo
    [Event.arbitrageRun 0 "best_paths_selected/RUN0.json",
     Event.arbitrageRun 1 "best_paths_selected/RUN1.json"]
    ["best_paths_selected/RUN0.json", "best_paths_selected/RUN1.json"]
    [Event.fileRead "best_paths_selected/RUN0.json",
     Event.fileRead "best_paths_selected/RUN1.json"]
    "0-RUN0-1-RUN1"
    [⟨"best_paths_selected/RUN0.json", 0⟩, ⟨"best_paths_selected/RUN1.json", 0⟩]
    [Event.fileCreateAttempt
       "best_paths_selected/ultra_strategies/0-RUN0-1-RUN1.json",
     Event.logged
       "Failed to create file best_paths_selected/ultra_strategies/0-RUN0-1-RUN1.json"]
    "failed to create best_paths_selected/ultra_strategies/0-RUN0-1-RUN1.json"
    rfl rfl (by decide) rfl rfl).1

/-- C5: in a successful multi-configuration session the merged strategy is
persisted exactly once to each sink — one file write under
best_paths_selected/ultra_strategies/ and one document-store insert under
the collection ultra_strategies — and its file serialization is an object
with the single field value holding the array of elements. -/
theorem c5_merged_persisted_once :
    ∀ (w : World) (inputs : List InputVec) (revs : List Event)
      (paths : List String) (uevs : List Event) (nm : String)
      (vec : List SwapPathSelected) (pevs : List Event) (newPath : String),
    w.connectResult = .ok () →
    runsLoop w.runResult 0 inputs = (revs, .ok paths) →
    1 < inputs.length →
    ultraLoop w.readStrategyFile 0 "" [] paths = (uevs, .ok nm vec) →
    persistUltra w nm vec = (pevs, .ok newPath) →
    (mainRun w inputs).1.filter Event.isFileWritten =
      [Event.fileWritten
        ("best_paths_selected/ultra_strategies/" ++ nm ++ ".json") ⟨vec⟩] ∧
    (mainRun w inputs).1.filter Event.isDbInserted =
      [Event.dbInserted "ultra_strategies" ⟨vec⟩] ∧
    serializeVecSwapPathSelected ⟨vec⟩ =
      Json.obj [("value", Json.arr (vec.map serializeSwapPathSelected))] := by
  intro w inputs revs paths uevs nm vec pevs newPath hc hr hl hu hp
  obtain ⟨hnew, hpevs⟩ := persistUltra_ok_shape w nm vec pevs newPath hp
  rw [mainRun_eq_persist_ok w inputs revs paths uevs nm vec pevs newPath hc hr hl hu hp]
  have hu_evs : ∀ e ∈ uevs, e.isFileRead = true := by
    intro e he
    have hh := ultraLoop_events_fileRead w.readStrategyFile paths 0 "" [] e
    rw [hu] at hh
    exact hh he
  have hrev_w : revs.filter Event.isFileWritten = [] := by
    refine List.filter_eq_nil_iff.mpr ?_
    intro e he
    obtain ⟨k, q, hkq⟩ := runsLoop_mem_shape w.runResult inputs 0 revs paths hr e he
    subst hkq; simp [Event.isFileWritten]
  have hu_w : uevs.filter Event.isFileWritten = [] := by
    refine List.filter_eq_nil_iff.mpr ?_
    intro e he
    simp [(fileRead_flags e (hu_evs e he)).2.1]
  have ht_w : ((bestAndOptimism w newPath).1).filter Event.isFileWritten = [] := by
    refine List.filter_eq_nil_iff.mpr ?_
    intro e he
    have hm := (bestAndOptimism_events_classified w newPath e he).2.2
    simp [(not_mergePhase_flags e hm).1]
  have hrev_d : revs.filter Event.isDbInserted = [] := by
    refine List.filter_eq_nil_iff.mpr ?_
    intro e he
    obtain ⟨k, q, hkq⟩ := runsLoop_mem_shape w.runResult inputs 0 revs paths hr e he
    subst hkq; simp [Event.isDbInserted]
  have hu_d : uevs.filter Event.isDbInserted = [] := by
    refine List.filter_eq_nil_iff.mpr ?_
    intro e he
    simp [(fileRead_flags e (hu_evs e he)).2.2.1]
  have ht_d : ((bestAndOptimism w newPath).1).filter Event.isDbInserted = [] := by
    refine List.filter_eq_nil_iff.mpr ?_
    intro e he
    have hm := (bestAndOptimism_events_classified w newPath e he).2.2
    simp [(not_mergePhase_flags e hm).2.1]
  have hp_w : pevs.filter Event.isFileWritten = [Event.fileWritten newPath ⟨vec⟩] := by
    subst hpevs
    simp [List.filter, Event.isFileWritten]
  have hp_d : pevs.filter Event.isDbInserted =
      [Event.dbInserted "ultra_strategies" ⟨vec⟩] := by
    subst hpevs
    simp [List.filter, Event.isDbInserted]
  have h0w : ([Event.connected, Event.poolsLoaded] : List Event).filter
      Event.isFileWritten = [] := rfl
  have h0d : ([Event.connected, Event.poolsLoaded] : List Event).filter
      Event.isDbInserted = [] := rfl
  refine ⟨?_, ?_, rfl⟩
  · simp only [List.filter_append, h0w, hrev_w, hu_w, hp_w, ht_w,
      List.nil_append, List.append_nil]
    rw [hnew]
  · simp only [List.filter_append, h0d, hrev_d, hu_d, hp_d, ht_d,
      List.nil_append, List.append_nil]

theorem c5_witness :
    (mainRun goodWorld inputsTwo).1.filter Event.isDbInserted =
      [Event.dbInserted "ultra_strategies"
        ⟨[⟨"best_paths_selected/RUN0.json", 0⟩,
          ⟨"best_paths_selected/RUN1.json", 0⟩]⟩] :=
  (c5_merged_persisted_once goodWorld inputsTwo
    [Event.arbitrageRun 0 "best_paths_selected/RUN0.json",
     Event.arbitrageRun 1 "best_paths_selected/RUN1.json"]
    ["best_paths_selected/RUN0.json", "best_paths_selected/RUN1.json"]
    [Event.fileRead "best_paths_selected/RUN0.json",
     Event.fileRead "best_paths_selected/RUN1.json"]
    "0-RUN0-1-RUN1"
    [⟨"best_paths_selected/RUN0.json", 0⟩, ⟨"best_paths_selected/RUN1.json", 0⟩]
    [Event.fileCreateAttempt
       "best_paths_selected/ultra_strategies/0-RUN0-1-RUN1.json",
     Event.fileWritten "best_paths_selected/ultra_strategies/0-RUN0-1-RUN1.json"
       ⟨[⟨"best_paths_selected/RUN0.json", 0⟩,
         ⟨"best_paths_selected/RUN1.json", 0⟩]⟩,
     Event.logged
       "Written to best_paths_selected/ultra_strategies/0-RUN0-1-RUN1.json",
     Event.dbInsertAttempt "ultra_strategies",
     Event.dbInserted "ultra_strategies"
       ⟨[⟨"best_paths_selected/RUN0.json", 0⟩,
         ⟨"best_paths_selected/RUN1.json", 0⟩]⟩]
    "best_paths_selected/ultra_strategies/0-RUN0-1-RUN1.json"
    rfl rfl (by decide) rfl rfl).2.1

/-- C6 counterexample: in the concrete single-configuration session whose
run persists its selection at best_paths_selected/solo.json, the
best-strategy stage is invoked on the hard-coded default path, not on the
single run's persisted selection — refuting "the single run's persisted
selection is used directly as the best-strategy input". -/
theorem c6_counterexample_single_run_path_ignored :
    Event.bestStrategyRun defaultPathBestStrategy ∈ (mainRun soloWorld inputsOne).1 ∧
    Event.bestStrategyRun "best_paths_selected/solo.json" ∉
      (mainRun soloWorld inputsOne).1 := by
  decide

/-- C6 (amended): the Strategy Aggregator executes if and only if more than
one InputVec entry is configured; with a single configuration no merge is
performed and the best-strategy stage receives the hard-coded default
strategy path — the single run's own persisted selection path is ignored. -/
theorem c6_amended_aggregator_guard :
    ∀ (w : World) (inputs : List InputVec) (revs : List Event) (paths : List String),
    w.connectResult = .ok () →
    runsLoop w.runResult 0 inputs = (revs, .ok paths) →
    ((¬1 < inputs.length →
       (mainRun w inputs).1.filter Event.isMergePhase = [] ∧
       (mainRun w inputs).1 =
         [Event.connected, Event.poolsLoaded] ++ revs
           ++ (bestAndOptimism w defaultPathBestStrategy).1) ∧
     (∀ (uevs : List Event) (nm : String) (vec : List SwapPathSelected)
        (pevs : List Event) (newPath : String),
        1 < inputs.length →
        ultraLoop w.readStrategyFile 0 "" [] paths = (uevs, .ok nm vec) →
        persistUltra w nm vec = (pevs, .ok newPath) →
        (mainRun w inputs).1.filter Event.isMergePhase ≠ [] ∧
        (mainRun w inputs).1 =
          [Event.connected, Event.poolsLoaded] ++ revs ++ uevs ++ pevs
            ++ (bestAndOptimism w newPath).1)) := by
  intro w inputs revs paths hc hr
  constructor
  · intro hl
    rw [mainRun_eq_single w inputs revs paths hc hr hl]
    refine ⟨?_, rfl⟩
    have h0 : ([Event.connected, Event.poolsLoaded] : List Event).filter
        Event.isMergePhase = [] := rfl
    have hrev : revs.filter Event.isMergePhase = [] := by
      refine List.filter_eq_nil_iff.mpr ?_
      intro e he
      obtain ⟨k, q, hkq⟩ := runsLoop_mem_shape w.runResult inputs 0 revs paths hr e he
      subst hkq; simp [Event.isMergePhase]
    have ht : ((bestAndOptimism w defaultPathBestStrategy).1).filter
        Event.isMergePhase = [] := by
      refine List.filter_eq_nil_iff.mpr ?_
      intro e he
      simp [(bestAndOptimism_events_classified w defaultPathBestStrategy e he).2.2]
    simp only [List.filter_append, h0, hrev, ht, List.nil_append, List.append_nil]
  · intro uevs nm vec pevs newPath hl hu hp
    obtain ⟨hnew, hpevs⟩ := persistUltra_ok_shape w nm vec pevs newPath hp
    rw [mainRun_eq_persist_ok w inputs revs paths uevs nm vec pevs newPath hc hr hl hu hp]
    refine ⟨?_, rfl⟩
    have hmem : Event.fileCreateAttempt newPath ∈
        ([Event.connected, Event.poolsLoaded] ++ revs ++ uevs ++ pevs
          ++ (bestAndOptimism w newPath).1).filter Event.isMergePhase := by
      refine List.mem_filter.mpr ⟨?_, rfl⟩
      subst hpevs
      simp [List.mem_append]
    exact List.ne_nil_of_mem hmem

theorem c6_amended_witness :
    (mainRun soloWorld inputsOne).1.filter Event.isMergePhase = [] ∧
    (mainRun soloWorld inputsOne).1 =
      [Event.connected, Event.poolsLoaded]
        ++ [Event.arbitrageRun 0 "best_paths_selected/solo.json"]
        ++ (bestAndOptimism soloWorld defaultPathBestStrategy).1 :=
  (c6_amended_aggregator_guard soloWorld inputsOne
    [Event.arbitrageRun 0 "best_paths_selected/solo.json"]
    ["best_paths_selected/solo.json"] rfl rfl).1 (by decide)

/-- C8: aggregation begins only after every configured run has completed —
the runs produce exactly one strategy path per configuration in run order,
the merge loop is applied to exactly that list, and no arbitrage-run event
occurs from the merge phase onward. -/
theorem c8_aggregation_after_all_runs :
    ∀ (w : World) (inputs : List InputVec) (revs : List Event) (paths : List String),
    w.connectResult = .ok () →
    runsLoop w.runResult 0 inputs = (revs, .ok paths) →
    1 < inputs.length →
    paths.length = inputs.length ∧
    revs = (List.enumFrom 0 paths).map (fun p => Event.arbitrageRun p.1 p.2) ∧
    ∃ post,
      (mainRun w inputs).1 =
        [Event.connected, Event.poolsLoaded] ++ revs
          ++ (ultraLoop w.readStrategyFile 0 "" [] paths).1 ++ post ∧
      ∀ e ∈ (ultraLoop w.readStrategyFile 0 "" [] paths).1 ++ post,
        e.isArbRun = false := by
  intro w inputs revs paths hc hr hl
  obtain ⟨hlen, hevs⟩ := runsLoop_ok w.runResult inputs 0 revs paths hr
  refine ⟨hlen, hevs, ?_⟩
  have hu_all : ∀ e ∈ (ultraLoop w.readStrategyFile 0 "" [] paths).1,
      e.isArbRun = false := fun e he =>
    (fileRead_flags e (ultraLoop_events_fileRead w.readStrategyFile paths 0 "" [] e he)).1
  cases hux : ultraLoop w.readStrategyFile 0 "" [] paths with
  | mk uevs res =>
    cases res with
    | panicked m =>
      refine ⟨[], ?_, ?_⟩
      · rw [mainRun_eq_ultra_panicked w inputs revs paths uevs m hc hr hl hux]
        simp
      · intro e he
        refine hu_all e ?_
        rw [hux]
        simpa using he
    | errored m =>
      refine ⟨[], ?_, ?_⟩
      · rw [mainRun_eq_ultra_errored w inputs revs paths uevs m hc hr hl hux]
        simp
      · intro e he
        refine hu_all e ?_
        rw [hux]
        simpa using he
    | ok nm vec =>
      cases hpx : persistUltra w nm vec with
      | mk pevs pres =>
        have hp_all : ∀ e ∈ pevs, e.isArbRun = false := by
          intro e he
          have hcl := persistUltra_events_classified w nm vec e
          rw [hpx] at hcl
          exact (hcl he).1
        cases pres with
        | error m =>
          refine ⟨pevs, ?_, ?_⟩
          · rw [mainRun_eq_persist_error w inputs revs paths uevs nm vec pevs m
              hc hr hl hux hpx]
          · intro e he
            rcases List.mem_append.mp he with h | h
            · refine hu_all e ?_
              rw [hux]
              exact h
            · exact hp_all e h
        | ok newPath =>
          refine ⟨pevs ++ (bestAndOptimism w newPath).1, ?_, ?_⟩
          · rw [mainRun_eq_persist_ok w inputs revs paths uevs nm vec pevs newPath
              hc hr hl hux hpx]
            simp [List.append_assoc]
          · intro e he
            rcases List.mem_append.mp he with h | h
            · refine hu_all e ?_
              rw [hux]
              exact h
            · rcases List.mem_append.mp h with h2 | h2
              · exact hp_all e h2
              · exact (bestAndOptimism_events_classified w newPath e h2).1

theorem c8_witness :
    (["best_paths_selected/RUN0.json", "best_paths_selected/RUN1.json"] :
        List String).length = inputsTwo.length :=
  (c8_aggregation_after_all_runs goodWorld inputsTwo
    [Event.arbitrageRun 0 "best_paths_selected/RUN0.json",
     Event.arbitrageRun 1 "best_paths_selected/RUN1.json"]
    ["best_paths_selected/RUN0.json", "best_paths_selected/RUN1.json"]
    rfl rfl (by decide)).1

end MEVBot
